import Mathlib

set_option maxHeartbeats 1000000

namespace FC

-- ==========================================================================
-- Python-faithful string primitives, modelling the CPython `str` methods used
-- by src/flashcard_generator.py.  Strings are handled as codepoint lists.
-- ==========================================================================

def lbraceC : Char := Char.ofNat 123
def rbraceC : Char := Char.ofNat 125
def dquoteC : Char := Char.ofNat 34
def bslashC : Char := Char.ofNat 92

-- Python str.strip() whitespace (the ASCII part; exotic Unicode space
-- characters never influence the claims checked here).
def isPySpace (c : Char) : Bool :=
  c == ' ' || c == '\t' || c == '\n' || c == '\r' || c == '\x0b' || c == '\x0c'

def pyStripList (l : List Char) : List Char :=
  ((l.dropWhile isPySpace).reverse.dropWhile isPySpace).reverse

-- str.strip()
def pyStrip (s : String) : String := ⟨pyStripList s.data⟩

-- len(s)
def pyLen (s : String) : Nat := s.data.length

-- s.startswith(pre)
def pyStartsWith (s pre : String) : Bool := pre.data.isPrefixOf s.data

-- s.endswith(suf)
def pyEndsWith (s suf : String) : Bool := suf.data.isSuffixOf s.data

-- s.upper(); Char.toUpper is ASCII-only while Python uppercases all of
-- Unicode, but the only use below is a trailing-colon test, which full
-- Unicode uppercasing cannot affect either.
def pyUpper (s : String) : String := ⟨s.data.map Char.toUpper⟩

-- s.split('\n')  (Python semantics: "".split('\n') == [""])
def splitNlList : List Char → List (List Char)
  | [] => [[]]
  | c :: rest =>
    if c == '\n' then [] :: splitNlList rest
    else
      match splitNlList rest with
      | [] => [[c]]
      | g :: gs => (c :: g) :: gs

def pySplitNl (s : String) : List String := (splitNlList s.data).map (fun l => ⟨l⟩)

-- s.replace(pat, rep): leftmost, non-overlapping, ALL occurrences replaced.
-- (Only called with non-empty pat in the embedded code.)  Fuelled so that it
-- reduces in the kernel; every step consumes at least one character, so the
-- fuel supplied by pyReplace is never exhausted.
def replList (pat rep : List Char) : Nat → List Char → List Char
  | 0, l => l
  | _ + 1, [] => []
  | fuel + 1, c :: rest =>
    if pat ≠ [] ∧ pat.isPrefixOf (c :: rest) then
      rep ++ replList pat rep fuel ((c :: rest).drop pat.length)
    else
      c :: replList pat rep fuel rest

def pyReplace (s pat rep : String) : String :=
  ⟨replList pat.data rep.data (s.data.length + 1) s.data⟩

-- s.find(c) for a single-character needle: first index or -1.
def pyFindChar (s : String) (c : Char) : Int :=
  match s.data.findIdx? (· == c) with
  | some i => (i : Int)
  | none => -1

-- s.rfind(c) for a single-character needle: last index or -1.
def pyRfindChar (s : String) (c : Char) : Int :=
  match s.data.reverse.findIdx? (· == c) with
  | some i => ((s.data.length - 1 - i : Nat) : Int)
  | none => -1

-- s[a:b]; only reached with 0 <= a and 0 <= b in the embedded code.
def pySlice (s : String) (a b : Int) : String :=
  ⟨(s.data.drop a.toNat).take (b.toNat - a.toNat)⟩

-- ==========================================================================
-- Python JSON values and a model of json.loads, as used by
-- _parse_llm_response.  Numbers are kept as exact rationals (Python parses
-- non-integral JSON numbers to IEEE floats; the rounding of that final step
-- is not modelled, and never affects the claims below).  json.loads also
-- accepts the non-standard literals NaN / Infinity / -Infinity.
-- ==========================================================================

inductive Json where
  | null
  | bool (b : Bool)
  | num (q : ℚ)
  | nan
  | inf (neg : Bool)
  | str (s : String)
  | arr (xs : List Json)
  | obj (kvs : List (String × Json))

-- Python dict insertion: a repeated key keeps its first position but takes
-- the latest value (dict construction order in the JSON object decoder).
def insertKV (kvs : List (String × Json)) (k : String) (v : Json) :
    List (String × Json) :=
  match kvs with
  | [] => [(k, v)]
  | (k0, v0) :: rest =>
    if k0 = k then (k0, v) :: rest else (k0, v0) :: insertKV rest k v

-- dict.get(k, dflt)
def jLookup (kvs : List (String × Json)) (k : String) (dflt : Json) : Json :=
  match kvs with
  | [] => dflt
  | (k0, v0) :: rest => if k0 = k then v0 else jLookup rest k dflt

def isJsonWs (c : Char) : Bool :=
  c == ' ' || c == '\t' || c == '\n' || c == '\r'

def skipWs (cs : List Char) : List Char := cs.dropWhile isJsonWs

def hexVal (c : Char) : Option Nat :=
  if '0' ≤ c ∧ c ≤ '9' then some (c.toNat - 48)
  else if 'a' ≤ c ∧ c ≤ 'f' then some (c.toNat - 87)
  else if 'A' ≤ c ∧ c ≤ 'F' then some (c.toNat - 55)
  else none

def parseHex4 (cs : List Char) : Option (Nat × List Char) :=
  match cs with
  | c1 :: c2 :: c3 :: c4 :: rest =>
    match hexVal c1, hexVal c2, hexVal c3, hexVal c4 with
    | some h1, some h2, some h3, some h4 =>
      some (((h1 * 16 + h2) * 16 + h3) * 16 + h4, rest)
    | _, _, _, _ => none
  | _ => none

-- JSON string body (after the opening quote).  Raw control characters are
-- rejected (json.loads strict mode); the usual escapes are understood,
-- \uXXXX surrogate pairs are combined.  A lone surrogate (which Python would
-- keep in its str) is mapped to NUL since Lean Char cannot hold it; no claim
-- depends on that corner.
def parseJStringAux : Nat → List Char → List Char → Option (String × List Char)
  | 0, _, _ => none
  | n + 1, acc, cs =>
    match cs with
    | [] => none
    | c :: rest =>
      if c = dquoteC then some (⟨acc.reverse⟩, rest)
      else if c = bslashC then
        match rest with
        | [] => none
        | e :: rest2 =>
          if e = dquoteC then parseJStringAux n (dquoteC :: acc) rest2
          else if e = bslashC then parseJStringAux n (bslashC :: acc) rest2
          else if e = '/' then parseJStringAux n ('/' :: acc) rest2
          else if e = 'b' then parseJStringAux n ('\x08' :: acc) rest2
          else if e = 'f' then parseJStringAux n ('\x0c' :: acc) rest2
          else if e = 'n' then parseJStringAux n ('\n' :: acc) rest2
          else if e = 'r' then parseJStringAux n ('\r' :: acc) rest2
          else if e = 't' then parseJStringAux n ('\t' :: acc) rest2
          else if e = 'u' then
            match parseHex4 rest2 with
            | none => none
            | some (h, rest3) =>
              if 0xD800 ≤ h ∧ h ≤ 0xDBFF then
                match rest3 with
                | b1 :: b2 :: rest4 =>
                  if b1 = bslashC ∧ b2 = 'u' then
                    match parseHex4 rest4 with
                    | some (l, rest5) =>
                      if 0xDC00 ≤ l ∧ l ≤ 0xDFFF then
                        parseJStringAux n
                          (Char.ofNat (0x10000 + (h - 0xD800) * 0x400 + (l - 0xDC00)) :: acc) rest5
                      else parseJStringAux n (Char.ofNat h :: acc) rest3
                    | none => parseJStringAux n (Char.ofNat h :: acc) rest3
                  else parseJStringAux n (Char.ofNat h :: acc) rest3
                | _ => parseJStringAux n (Char.ofNat h :: acc) rest3
              else parseJStringAux n (Char.ofNat h :: acc) rest3
          else none
      else if c.toNat < 32 then none
      else parseJStringAux n (c :: acc) rest

def parseJString (cs : List Char) : Option (String × List Char) :=
  parseJStringAux (cs.length + 1) [] cs

def digitsToNat (acc : Nat) : List Char → Nat × List Char
  | [] => (acc, [])
  | c :: rest =>
    if c.isDigit then digitsToNat (acc * 10 + (c.toNat - 48)) rest
    else (acc, c :: rest)

def takeDigits : List Char → List Char × List Char
  | [] => ([], [])
  | c :: rest =>
    if c.isDigit then
      let r := takeDigits rest
      (c :: r.1, r.2)
    else ([], c :: rest)

-- Optional exponent part; if the characters after e/E do not contain at
-- least one digit the exponent group is not consumed (regex backtracking).
def parseExpPart (cs : List Char) : Int × List Char :=
  match cs with
  | 'e' :: r =>
    (match r with
     | '+' :: r4 =>
       (match takeDigits r4 with
        | ([], _) => ((0 : Int), cs)
        | (ds, r5) => (((digitsToNat 0 ds).1 : Int), r5))
     | '-' :: r4 =>
       (match takeDigits r4 with
        | ([], _) => ((0 : Int), cs)
        | (ds, r5) => (-(((digitsToNat 0 ds).1 : Nat) : Int), r5))
     | _ =>
       (match takeDigits r with
        | ([], _) => ((0 : Int), cs)
        | (ds, r5) => (((digitsToNat 0 ds).1 : Int), r5)))
  | 'E' :: r =>
    (match r with
     | '+' :: r4 =>
       (match takeDigits r4 with
        | ([], _) => ((0 : Int), cs)
        | (ds, r5) => (((digitsToNat 0 ds).1 : Int), r5))
     | '-' :: r4 =>
       (match takeDigits r4 with
        | ([], _) => ((0 : Int), cs)
        | (ds, r5) => (-(((digitsToNat 0 ds).1 : Nat) : Int), r5))
     | _ =>
       (match takeDigits r with
        | ([], _) => ((0 : Int), cs)
        | (ds, r5) => (((digitsToNat 0 ds).1 : Int), r5)))
  | _ => ((0 : Int), cs)

def finishNum (neg : Bool) (ip : Nat) (fracDigits : List Char) (r2 : List Char) :
    ℚ × List Char :=
  let er := parseExpPart r2
  let base : ℚ :=
    (ip : ℚ) + (((digitsToNat 0 fracDigits).1 : ℚ) / ((10 : ℚ) ^ fracDigits.length))
  ((if neg then -base else base) * (10 : ℚ) ^ er.1, er.2)

-- JSON number grammar (json's NUMBER_RE):
--   (-?(0|[1-9][0-9]*))(\.[0-9]+)?([eE][-+]?[0-9]+)?
-- The leading minus sign has already been consumed by the caller.
def parseNumber (neg : Bool) (cs : List Char) : Option (ℚ × List Char) :=
  match cs with
  | [] => none
  | c :: rest =>
    if ¬ c.isDigit then none
    else
      let ir := if c = '0' then ((0 : Nat), rest) else digitsToNat (c.toNat - 48) rest
      match ir.2 with
      | '.' :: r =>
        (match takeDigits r with
         | ([], _) => some (finishNum neg ir.1 [] ir.2)
         | (ds, r2) => some (finishNum neg ir.1 ds r2))
      | _ => some (finishNum neg ir.1 [] ir.2)

def expectLit (lit : List Char) (cs : List Char) : Option (List Char) :=
  if lit.isPrefixOf cs then some (cs.drop lit.length) else none

-- The recursive value/object/array parsers, fuelled: every recursive call
-- consumes at least one input character before spending one unit of fuel,
-- so fuel `length + 2` (supplied by jsonLoads) can never run out.
mutual

def parseValue : Nat → List Char → Option (Json × List Char)
  | 0, _ => none
  | n + 1, cs =>
    match skipWs cs with
    | [] => none
    | c :: rest =>
      if c = lbraceC then parseObjBody n rest
      else if c = '[' then parseArrBody n rest
      else if c = dquoteC then
        match parseJString rest with
        | some (s, r) => some (Json.str s, r)
        | none => none
      else if c = 't' then (expectLit ['r', 'u', 'e'] rest).map (fun r => (Json.bool true, r))
      else if c = 'f' then (expectLit ['a', 'l', 's', 'e'] rest).map (fun r => (Json.bool false, r))
      else if c = 'n' then (expectLit ['u', 'l', 'l'] rest).map (fun r => (Json.null, r))
      else if c = 'N' then (expectLit ['a', 'N'] rest).map (fun r => (Json.nan, r))
      else if c = 'I' then
        (expectLit ['n', 'f', 'i', 'n', 'i', 't', 'y'] rest).map (fun r => (Json.inf false, r))
      else if c = '-' then
        match rest with
        | 'I' :: r2 =>
          (expectLit ['n', 'f', 'i', 'n', 'i', 't', 'y'] r2).map (fun r => (Json.inf true, r))
        | _ =>
          match parseNumber true rest with
          | some (q, r) => some (Json.num q, r)
          | none => none
      else if c.isDigit then
        match parseNumber false (c :: rest) with
        | some (q, r) => some (Json.num q, r)
        | none => none
      else none

-- First object member (or immediate close) after the opening brace.
def parseObjBody : Nat → List Char → Option (Json × List Char)
  | 0, _ => none
  | n + 1, cs =>
    match skipWs cs with
    | [] => none
    | c :: rest =>
      if c = rbraceC then some (Json.obj [], rest)
      else if c = dquoteC then
        match parseJString rest with
        | none => none
        | some (k, r1) =>
          (match skipWs r1 with
           | ':' :: r2 =>
             (match parseValue n r2 with
              | none => none
              | some (v, r3) => parseObjRest n r3 (insertKV [] k v))
           | _ => none)
      else none

-- After a complete member: expect ',' and another member, or the close brace.
def parseObjRest : Nat → List Char → List (String × Json) → Option (Json × List Char)
  | 0, _, _ => none
  | n + 1, cs, acc =>
    match skipWs cs with
    | c :: rest =>
      if c = rbraceC then some (Json.obj acc, rest)
      else if c = ',' then
        match skipWs rest with
        | c2 :: r1 =>
          if c2 = dquoteC then
            match parseJString r1 with
            | none => none
            | some (k, r2) =>
              (match skipWs r2 with
               | ':' :: r3 =>
                 (match parseValue n r3 with
                  | none => none
                  | some (v, r4) => parseObjRest n r4 (insertKV acc k v))
               | _ => none)
          else none
        | [] => none
      else none
    | [] => none

def parseArrBody : Nat → List Char → Option (Json × List Char)
  | 0, _ => none
  | n + 1, cs =>
    match skipWs cs with
    | c :: rest =>
      if c = ']' then some (Json.arr [], rest)
      else
        match parseValue n (c :: rest) with
        | none => none
        | some (v, r1) => parseArrRest n r1 [v]
    | [] => none

def parseArrRest : Nat → List Char → List Json → Option (Json × List Char)
  | 0, _, _ => none
  | n + 1, cs, acc =>
    match skipWs cs with
    | c :: rest =>
      if c = ']' then some (Json.arr acc, rest)
      else if c = ',' then
        match parseValue n rest with
        | none => none
        | some (v, r1) => parseArrRest n r1 (acc ++ [v])
      else none
    | [] => none

end

-- json.loads: parse one value, then require only whitespace to remain.
-- The fuel bound 2*length+4 strictly dominates the number of recursive
-- calls any input can cause, so it is never exhausted.
def jsonLoads (s : String) : Option Json :=
  match parseValue (2 * s.data.length + 4) s.data with
  | some (v, rest) => if skipWs rest = [] then some v else none
  | none => none

-- ==========================================================================
-- Data model (src/models.py).
-- ==========================================================================

inductive DifficultyLevel where
  | easy
  | medium
  | hard
deriving DecidableEq, Repr

inductive Subject where
  | biology | chemistry | physics | mathematics | computerScience
  | history | literature | geography | economics | psychology | other
deriving DecidableEq, Repr

inductive Language where
  | english | spanish | french | german | chinese | japanese
deriving DecidableEq, Repr

structure Flashcard where
  question : String
  answer : String
  difficulty : DifficultyLevel
  topic : Option String
  subject : Option Subject
  language : Language
deriving DecidableEq, Repr

-- GenerationResponse (src/models.py).  flashcards and topics default to
-- empty, error_message to None.  processing_time (wall clock) is not
-- modelled.  The topics field keeps the raw filtered JSON index values that
-- _update_topics_mapping produces.
structure GenerationResponse where
  success : Bool
  flashcards : List Flashcard
  topics : List (String × List Json)
  error_message : Option String

-- pydantic coercion of the difficulty field: the three enumeration values
-- validate, anything else raises a ValidationError.
def difficultyFromStr (s : String) : Option DifficultyLevel :=
  if s = "Easy" then some .easy
  else if s = "Medium" then some .medium
  else if s = "Hard" then some .hard
  else none

-- ==========================================================================
-- _parse_llm_response's per-card loop body (src/flashcard_generator.py
-- lines 180-191): builds a Flashcard from one element of data['flashcards'],
-- returning none when the Python body would raise (the inner `except`
-- then skips the card).
--   question / answer: card_data.get(key, '').strip() - requires a string
--     (a non-str value has no .strip(): AttributeError) but a BLANK string
--     passes, since pydantic `str` fields accept ''.
--   difficulty: card_data.get('difficulty', 'Medium') - pydantic coerces the
--     three valid strings, anything else raises and skips the card.
--   topic: card_data.get('topic', 'General') - Optional[str]: None allowed,
--     non-string values raise (pydantic v2 semantics for str fields).
--   subject is never passed (defaults to None), language is ENGLISH.
-- A non-dict element has no .get: AttributeError, card skipped.
-- ==========================================================================

def parseCard (cardData : Json) : Option Flashcard :=
  match cardData with
  | Json.obj kvs =>
    (match jLookup kvs "question" (Json.str ""), jLookup kvs "answer" (Json.str "") with
     | Json.str q, Json.str a =>
       (match jLookup kvs "difficulty" (Json.str "Medium") with
        | Json.str d =>
          (match difficultyFromStr d with
           | some dl =>
             (match jLookup kvs "topic" (Json.str "General") with
              | Json.str t => some ⟨pyStrip q, pyStrip a, dl, some t, none, Language.english⟩
              | Json.null => some ⟨pyStrip q, pyStrip a, dl, none, none, Language.english⟩
              | _ => none)
           | none => none)
        | _ => none)
     | _, _ => none)
  | _ => none

-- Python iteration as used by `for card_data in data.get('flashcards', [])`:
-- lists iterate elements, strings iterate 1-char strings, dicts iterate
-- keys; numbers / booleans / None are not iterable (TypeError, which
-- escapes the card loop and hits the outer generic handler).
def jIter (j : Json) : Except String (List Json) :=
  match j with
  | Json.arr xs => Except.ok xs
  | Json.str s => Except.ok (s.data.map (fun c => Json.str ⟨[c]⟩))
  | Json.obj kvs => Except.ok (kvs.map (fun p => Json.str p.1))
  | _ => Except.error "TypeError: not iterable"

-- ==========================================================================
-- _parse_text_response (src/flashcard_generator.py lines 205-266): the
-- line-oriented fallback parser.
-- ==========================================================================

-- line.upper().endswith(':') and len(line) < 50   (line 227)
def isTopicHeader (line : String) : Bool :=
  pyEndsWith (pyUpper line) ":" && decide (pyLen line < 50)

-- line.startswith('Q:') or line.startswith('Question:')   (lines 235, 242)
def isQuestionLine (line : String) : Bool :=
  pyStartsWith line "Q:" || pyStartsWith line "Question:"

-- line.replace('Q:', '').replace('Question:', '').strip()   (lines 236-237)
def questionOf (line : String) : String :=
  pyStrip (pyReplace (pyReplace line "Q:" "") "Question:" "")

-- The inner while loop (lines 241-246): accumulate answer lines until the
-- next Q:/Question: line or end of input; nonblank stripped lines get a
-- trailing space appended.  Returns (answer, remaining lines).
def collectAnswer : List String → String × List String
  | [] => ("", [])
  | l :: ls =>
    if isQuestionLine (pyStrip l) then ("", l :: ls)
    else
      let r := collectAnswer ls
      ((if pyStrip l ≠ "" then pyStrip l ++ " " else "") ++ r.1, r.2)

theorem collectAnswer_rest_length : ∀ ls : List String,
    (collectAnswer ls).2.length ≤ ls.length := by
  intro ls
  induction ls with
  | nil => simp [collectAnswer]
  | cons l t ih =>
    simp only [collectAnswer]
    split
    · simp
    · simpa using Nat.le_succ_of_le ih

structure PState where
  cards : List Flashcard
  topics : List (String × List Nat)
  current : String
deriving DecidableEq, Repr

-- topics[current].append(idx): the key is always present (registered at
-- init or on header detection); the missing-key branch is unreachable.
def assocAppend (tm : List (String × List Nat)) (k : String) (idx : Nat) :
    List (String × List Nat) :=
  match tm with
  | [] => []
  | (k0, l0) :: rest =>
    if k0 = k then (k0, l0 ++ [idx]) :: rest else (k0, l0) :: assocAppend rest k idx

def assocHas (tm : List (String × List Nat)) (k : String) : Bool :=
  match tm with
  | [] => false
  | (k0, _) :: rest => k0 == k || assocHas rest k

-- Card creation and bookkeeping (lines 248-259).  The Flashcard constructor
-- cannot raise here: question/answer are non-blank strs, difficulty is the
-- valid MEDIUM member, so the try/except around it never fires.
def emitCard (st : PState) (q a : String) : PState :=
  let card : Flashcard := ⟨q, a, DifficultyLevel.medium, some st.current, none, Language.english⟩
  let cards := st.cards ++ [card]
  -- topics[current_topic].append(len(flashcards) - 1)
  ⟨cards, assocAppend st.topics st.current (cards.length - 1), st.current⟩

-- The outer while loop (lines 223-264), one step per outer iteration.
-- Fuelled for kernel reduction: each step consumes at least one line
-- (collectAnswer never grows its remainder), so the fuel supplied by
-- parse_text_response is never exhausted.
def parseLines : Nat → List String → PState → PState
  | 0, _, st => st
  | _ + 1, [], st => st
  | fuel + 1, l :: rest, st =>
    let line := pyStrip l
    if isTopicHeader line then
      -- current_topic = line[:-1].strip(); register it if new (lines 227-232)
      let newTopic := pyStrip ⟨line.data.dropLast⟩
      let topics := if assocHas st.topics newTopic then st.topics
                    else st.topics ++ [(newTopic, [])]
      parseLines fuel rest ⟨st.cards, topics, newTopic⟩
    else if isQuestionLine line then
      let q := questionOf line
      let ar := collectAnswer rest
      let st1 := if q ≠ "" ∧ pyStrip ar.1 ≠ "" then emitCard st q (pyStrip ar.1) else st
      parseLines fuel ar.2 st1
    else
      parseLines fuel rest st

-- A Python int index (here always a Nat) as a JSON value.
def jnat (n : Nat) : Json := Json.num (n : ℚ)

def topicsToJson (tm : List (String × List Nat)) : Json :=
  Json.obj (tm.map (fun p => (p.1, Json.arr (p.2.map jnat))))

-- flashcards = []; topics = {"General": []}; current_topic = "General"
def initPState : PState := ⟨[], [("General", [])], "General"⟩

def parse_text_response (text : String) : List Flashcard × Json :=
  let lines := pySplitNl text
  let st := parseLines (lines.length + 1) lines initPState
  (st.cards, topicsToJson st.topics)

-- ==========================================================================
-- _parse_llm_response (src/flashcard_generator.py lines 156-203).
-- Control flow of the original:
--   * no '{' or no '}'  ->  raise ValueError("No JSON found in response");
--     ValueError is NOT a json.JSONDecodeError (it is its superclass), so
--     the `except json.JSONDecodeError` clause does not catch it - the
--     generic `except Exception` does, returning ([], {}).
--   * json.loads fails  ->  json.JSONDecodeError  ->  fall back to
--     _parse_text_response on the same raw text.
--   * iterating a non-iterable data['flashcards'] raises TypeError, caught
--     by the generic handler -> ([], {}).
--   * topics are returned verbatim: data.get('topics', {}).
-- ==========================================================================

def parse_llm_response (text : String) : List Flashcard × Json :=
  let json_start := pyFindChar text lbraceC
  let json_end := pyRfindChar text rbraceC + 1
  if json_start = -1 ∨ json_end = 0 then
    ([], Json.obj [])
  else
    let json_str := pySlice text json_start json_end
    match jsonLoads json_str with
    | none => parse_text_response text
    | some (Json.obj kvs) =>
      (match jIter (jLookup kvs "flashcards" (Json.arr [])) with
       | Except.error _ => ([], Json.obj [])
       | Except.ok items =>
         (items.filterMap parseCard, jLookup kvs "topics" (Json.obj [])))
    | some _ => ([], Json.obj [])  -- unreachable: json_str starts with '{'

-- ==========================================================================
-- _update_topics_mapping (src/flashcard_generator.py lines 268-287).
-- `topics` arrives verbatim from the JSON payload, so the Python body can
-- raise: .items() on a non-dict, iterating a non-iterable index list, or
-- comparing a non-number element to an int are TypeErrors, which escape to
-- generate_flashcards' generic handler.  Python specifics modelled:
-- booleans compare as 0/1, NaN comparisons are False, -Infinity < n.
-- ==========================================================================

def jLtNat (j : Json) (n : Nat) : Except String Bool :=
  match j with
  | Json.num q => Except.ok (decide (q < (n : ℚ)))
  | Json.bool b => Except.ok (decide ((if b then 1 else 0) < n))
  | Json.nan => Except.ok false
  | Json.inf neg => Except.ok neg
  | _ => Except.error "TypeError: unorderable types"

def filterIndices (xs : List Json) (n : Nat) : Except String (List Json) :=
  match xs with
  | [] => Except.ok []
  | x :: rest =>
    match jLtNat x n with
    | Except.error e => Except.error e
    | Except.ok b =>
      match filterIndices rest n with
      | Except.error e => Except.error e
      | Except.ok l => Except.ok (if b then x :: l else l)

-- One topics entry: `[idx for idx in indices if idx < num_cards]`.
-- Lists iterate; a string iterates to 1-char strings and a dict to its
-- keys, but those elements then fail the int comparison anyway.
def validIndices (indices : Json) (n : Nat) : Except String (List Json) :=
  match jIter indices with
  | Except.error e => Except.error e
  | Except.ok xs => filterIndices xs n

def updateTopicsAux (kvs : List (String × Json)) (n : Nat) :
    Except String (List (String × List Json)) :=
  match kvs with
  | [] => Except.ok []
  | (t, indices) :: rest =>
    match validIndices indices n with
    | Except.error e => Except.error e
    | Except.ok v =>
      match updateTopicsAux rest n with
      | Except.error e => Except.error e
      | Except.ok out => Except.ok (if v.isEmpty then out else (t, v) :: out)

def update_topics_mapping (topics : Json) (num_cards : Nat) :
    Except String (List (String × List Json)) :=
  match topics with
  | Json.obj kvs => updateTopicsAux kvs num_cards
  | _ => Except.error "AttributeError: no items"

-- ==========================================================================
-- generate_flashcards (src/flashcard_generator.py lines 70-154).
-- The LLM provider (ChatOpenAI.invoke / cohere generate) is the external
-- collaborator: modelled as a function that either returns the response
-- text or raises (Except.error).  Prompt templates (prompts.py) are opaque
-- string suppliers; the template chosen for the request is the basePrompt
-- argument.  The whole body sits in one try/except: any raised error
-- becomes a failure response "Error generating flashcards: <e>".
-- ==========================================================================

def coherePrompt (numCards : Nat) (content : String) : String :=
  "Generate " ++ toString numCards ++
    " flashcards in Q&A format about the following content:\n" ++ content ++
    "\nEach flashcard should be formatted as:\nQ: [question]\nA: [answer]\n" ++
    "Only output the flashcards, nothing else."

def generate_flashcards (useCohere : Bool) (llm : String → Except String String)
    (basePrompt : String) (content : String) (numCards : Nat) : GenerationResponse :=
  if pyStrip content = "" then
    ⟨false, [], [], some "No content provided for flashcard generation."⟩
  else
    let fullPrompt := if useCohere then coherePrompt numCards content
                      else basePrompt ++ content
    match llm fullPrompt with
    | Except.error e =>
      ⟨false, [], [], some ("Error generating flashcards: " ++ e)⟩
    | Except.ok responseText =>
      let parsed := if useCohere then parse_text_response responseText
                    else parse_llm_response responseText
      if parsed.1.isEmpty then
        ⟨false, [], [], some "No valid flashcards were generated. Please try again."⟩
      else
        let cards := if parsed.1.length > numCards then parsed.1.take numCards
                     else parsed.1
        match update_topics_mapping parsed.2 cards.length with
        | Except.error e =>
          ⟨false, [], [], some ("Error generating flashcards: " ++ e)⟩
        | Except.ok topics => ⟨true, cards, topics, none⟩

-- ==========================================================================
-- translate_flashcards / improve_flashcards (lines 289-377).
-- Both serialize the cards with json.dumps, call the provider and re-parse;
-- any raised exception (in this embedding: only the provider call can
-- raise) is swallowed and the ORIGINAL list is returned.  A provider reply
-- that parses to zero cards is returned as-is (there is no emptiness
-- check).  The serialized prompt text is opaque to every claim; dumpsCards
-- mirrors json.dumps' document structure without reproducing its exact
-- indent-2 whitespace.
-- ==========================================================================

def jsonEscape (s : String) : String :=
  ⟨s.data.foldr (fun c acc =>
    if c = dquoteC then bslashC :: dquoteC :: acc
    else if c = bslashC then bslashC :: bslashC :: acc
    else if c = '\n' then bslashC :: 'n' :: acc
    else if c = '\r' then bslashC :: 'r' :: acc
    else if c = '\t' then bslashC :: 't' :: acc
    else c :: acc) []⟩

def difficultyStr : DifficultyLevel → String
  | .easy => "Easy"
  | .medium => "Medium"
  | .hard => "Hard"

def dumpsCard (c : Flashcard) : String :=
  "\x7b\"question\": \"" ++ jsonEscape c.question ++
    "\", \"answer\": \"" ++ jsonEscape c.answer ++
    "\", \"difficulty\": \"" ++ difficultyStr c.difficulty ++
    "\", \"topic\": " ++
    (match c.topic with
     | some t => "\"" ++ jsonEscape t ++ "\""
     | none => "null") ++ "\x7d"

def dumpsCards (cards : List Flashcard) : String :=
  "[" ++ String.intercalate ", " (cards.map dumpsCard) ++ "]"

def translate_flashcards (llm : String → Except String String)
    (translationPrompt : String) (flashcards : List Flashcard)
    (targetLanguage : Language) : List Flashcard :=
  if targetLanguage = Language.english then flashcards
  else
    let prompt := translationPrompt ++ "\n\nFlashcards to translate:\n" ++
      dumpsCards flashcards
    match llm prompt with
    | Except.error _ => flashcards
    | Except.ok responseText =>
      let translated := (parse_llm_response responseText).1
      -- for card in translated_flashcards: card.language = target_language
      translated.map (fun c => { c with language := targetLanguage })

def improve_flashcards (llm : String → Except String String)
    (editingPrompt : String) (flashcards : List Flashcard) : List Flashcard :=
  let prompt := editingPrompt ++ "\n\nFlashcards to improve:\n" ++
    dumpsCards flashcards
  match llm prompt with
  | Except.error _ => flashcards
  | Except.ok responseText => (parse_llm_response responseText).1

-- ==========================================================================
-- Helper lemmas.
-- ==========================================================================

theorem str_append_ne_empty (s t : String) (h : s ≠ "") : s ++ t ≠ "" := by
  intro heq
  apply h
  apply String.ext
  have hd : (s ++ t).data = [] := by rw [heq]
  rw [String.data_append] at hd
  exact List.append_eq_nil.mp hd |>.1

-- ==========================================================================
-- Claim C10.
-- ==========================================================================

/-- Claim C10: for every flashcard list, translate_flashcards with target
language English returns the input list itself unchanged without consulting
the provider (the result is the same for every provider function llm). -/
theorem c10_translate_english_identity (llm : String → Except String String)
    (translationPrompt : String) (flashcards : List Flashcard) :
    translate_flashcards llm translationPrompt flashcards Language.english = flashcards := by
  simp [translate_flashcards]

-- ==========================================================================
-- Claim C1 (corrected).  The claim says that when no brace pair exists the
-- structured parser hands off to the free-text parser.  In the code the
-- raised ValueError is caught by the generic `except Exception` handler
-- (json.JSONDecodeError is a SUBclass of ValueError, so the decode-error
-- clause does not match), which returns ([], {}) without ever calling
-- _parse_text_response.
-- ==========================================================================

/-- Claim C1 counterexample: on a brace-free input the structured parser
returns empty results, while the free-text parser run on the same text would
extract one card - so the combined parse is NOT what the free-text parser
extracts, contradicting the claim. -/
theorem c1_counterexample :
    parse_llm_response "Q: What is a cell?\nThe basic unit of life." = ([], Json.obj []) ∧
    (parse_text_response "Q: What is a cell?\nThe basic unit of life.").1.length = 1 ∧
    (parse_llm_response "Q: What is a cell?\nThe basic unit of life.").1.length ≠
      (parse_text_response "Q: What is a cell?\nThe basic unit of life.").1.length := by
  refine ⟨rfl, rfl, ?_⟩
  decide

/-- Claim C1 amended: for every input text containing no brace ('\x7b') or no
closing brace, _parse_llm_response returns an empty flashcard list and an
empty topics mapping; the free-text parser is not consulted (its result on
the same text plays no role). -/
theorem c1_no_json_returns_empty (text : String)
    (h : pyFindChar text lbraceC = -1 ∨ pyRfindChar text rbraceC = -1) :
    parse_llm_response text = ([], Json.obj []) := by
  unfold parse_llm_response
  rcases h with h | h
  · rw [if_pos (Or.inl h)]
  · rw [if_pos (Or.inr (by rw [h]; rfl))]

/-- Witness for c1_no_json_returns_empty at the concrete brace-free input
"hello there". -/
theorem c1_no_json_returns_empty_witness :
    pyFindChar "hello there" lbraceC = -1 ∧
    parse_llm_response "hello there" = ([], Json.obj []) :=
  ⟨rfl, c1_no_json_returns_empty "hello there" (Or.inl rfl)⟩

-- ==========================================================================
-- Claim C4 (confirmed): a brace span whose substring is not valid JSON makes
-- the structured parser fall back to the free-text parser on the raw text.
-- ==========================================================================

/-- Claim C4: for every text containing a brace pair (first brace at or
before the last closing brace) whose extracted substring fails json.loads,
_parse_llm_response propagates no error and returns exactly what
_parse_text_response yields on the same raw text. -/
theorem c4_decode_error_falls_back (text : String)
    (h1 : pyFindChar text lbraceC ≠ -1)
    (h2 : pyRfindChar text rbraceC ≠ -1)
    (h3 : pyFindChar text lbraceC ≤ pyRfindChar text rbraceC)
    (h4 : jsonLoads (pySlice text (pyFindChar text lbraceC)
            (pyRfindChar text rbraceC + 1)) = none) :
    parse_llm_response text = parse_text_response text := by
  have hcond : ¬(pyFindChar text lbraceC = -1 ∨ pyRfindChar text rbraceC + 1 = 0) := by
    intro hc
    rcases hc with hc | hc
    · exact h1 hc
    · exact h2 (by omega)
  unfold parse_llm_response
  rw [if_neg hcond]
  simp only [h4]

/-- Witness for c4_decode_error_falls_back: the text "a\x7bJUNK\x7db" has the
invalid-JSON brace span "\x7bJUNK\x7d", and the structured parser falls back
to the free-text parse of the whole text. -/
theorem c4_decode_error_falls_back_witness :
    pyFindChar "a\x7bJUNK\x7db" lbraceC = 1 ∧
    pyRfindChar "a\x7bJUNK\x7db" rbraceC = 6 ∧
    jsonLoads (pySlice "a\x7bJUNK\x7db" 1 7) = none ∧
    parse_llm_response "a\x7bJUNK\x7db" = parse_text_response "a\x7bJUNK\x7db" :=
  ⟨rfl, rfl, rfl,
    c4_decode_error_falls_back "a\x7bJUNK\x7db" (by decide) (by decide) (by decide) rfl⟩

-- ==========================================================================
-- Claim C3 (corrected).  A MISSING difficulty is indeed silently defaulted
-- to Medium, but an UNRECOGNIZED difficulty string fails pydantic's enum
-- validation: the per-card exception handler skips (discards) that card
-- instead of keeping it with Medium.
-- ==========================================================================

/-- Claim C3 counterexample: a payload whose single record carries the
unrecognized difficulty "Super" produces NO card at all (the record is
discarded), not a kept card with difficulty Medium as the claim states. -/
theorem c3_counterexample :
    parse_llm_response
      "\x7b\"flashcards\": [\x7b\"question\": \"q\", \"answer\": \"a\", \"difficulty\": \"Super\"\x7d]\x7d" =
      ([], Json.obj []) := by
  rfl

/-- Claim C3 amended: per-card validation defaults a MISSING difficulty to
Medium and keeps the card; an unrecognized difficulty value (not Easy,
Medium or Hard) makes the individual card fail validation and be skipped
(discarded), while the rest of the batch continues (shown by a payload where
the bad-difficulty record is dropped and the good record survives). -/
theorem c3_difficulty_policy :
    (∀ q a : String,
      parseCard (Json.obj [("question", Json.str q), ("answer", Json.str a)]) =
        some ⟨pyStrip q, pyStrip a, DifficultyLevel.medium, some "General", none,
          Language.english⟩) ∧
    (∀ q a d : String, d ≠ "Easy" → d ≠ "Medium" → d ≠ "Hard" →
      parseCard (Json.obj [("question", Json.str q), ("answer", Json.str a),
        ("difficulty", Json.str d)]) = none) ∧
    (parse_llm_response
        "\x7b\"flashcards\": [\x7b\"question\": \"q\", \"answer\": \"a\", \"difficulty\": \"Super\"\x7d, \x7b\"question\": \"q2\", \"answer\": \"a2\"\x7d]\x7d").1 =
      [⟨ "q2", "a2", DifficultyLevel.medium, some "General", none, Language.english⟩] := by
  refine ⟨?_, ?_, rfl⟩
  · intro q a
    simp [parseCard, jLookup, difficultyFromStr]
  · intro q a d he hm hh
    simp [parseCard, jLookup, difficultyFromStr, he, hm, hh]

/-- Witness for c3_difficulty_policy at difficulty "Super": the missing
branch keeps a Medium card, the unrecognized branch drops the card. -/
theorem c3_difficulty_policy_witness :
    parseCard (Json.obj [("question", Json.str "q"), ("answer", Json.str "a")]) =
      some ⟨ "q", "a", DifficultyLevel.medium, some "General", none, Language.english⟩ ∧
    parseCard (Json.obj [("question", Json.str "q"), ("answer", Json.str "a"),
      ("difficulty", Json.str "Super")]) = none :=
  ⟨(c3_difficulty_policy.1 "q" "a").trans (by rfl),
    c3_difficulty_policy.2.1 "q" "a" "Super" (by decide) (by decide) (by decide)⟩

-- ==========================================================================
-- Claim C7 (corrected).  translate/improve swallow RAISED errors and return
-- the original list, and never raise; but a provider reply that parses to
-- zero cards ("total parse failure" in the spec's own terms) makes them
-- return the parsed EMPTY list, not the original input.
-- ==========================================================================

/-- Claim C7 counterexample: the provider call succeeds but its reply
contains no parseable cards (the parse step fails totally); translate then
returns the empty parsed list instead of the original input list. -/
theorem c7_counterexample :
    translate_flashcards (fun _ => Except.ok "no json in this reply") "T"
      [⟨ "q", "a", DifficultyLevel.medium, some "G", none, Language.english⟩]
      Language.spanish = [] ∧
    ([⟨ "q", "a", DifficultyLevel.medium, some "G", none, Language.english⟩] :
      List Flashcard) ≠ [] := by
  exact ⟨rfl, by decide⟩

/-- Claim C7 amended: translate_flashcards and improve_flashcards are
fail-soft against RAISED failures: whenever the provider call raises, both
return the original input list unchanged and propagate no error.  (When the
provider call succeeds, the re-parsed list - possibly empty - is returned
instead, as the counterexample shows.) -/
theorem c7_fail_soft_on_raise (llm : String → Except String String)
    (translationPrompt editingPrompt : String) (flashcards : List Flashcard)
    (targetLanguage : Language) (e : String)
    (h : ∀ p, llm p = Except.error e) :
    translate_flashcards llm translationPrompt flashcards targetLanguage = flashcards ∧
    improve_flashcards llm editingPrompt flashcards = flashcards := by
  constructor
  · unfold translate_flashcards
    split
    · rfl
    · simp only [h]
  · unfold improve_flashcards
    simp only [h]

/-- Witness for c7_fail_soft_on_raise: a provider that always raises makes
translate (to Spanish) and improve return the original one-card list. -/
theorem c7_fail_soft_on_raise_witness :
    translate_flashcards (fun _ => Except.error "network down") "T"
      [⟨ "q", "a", DifficultyLevel.medium, some "G", none, Language.english⟩]
      Language.spanish =
      [⟨ "q", "a", DifficultyLevel.medium, some "G", none, Language.english⟩] ∧
    improve_flashcards (fun _ => Except.error "network down") "E"
      [⟨ "q", "a", DifficultyLevel.medium, some "G", none, Language.english⟩] =
      [⟨ "q", "a", DifficultyLevel.medium, some "G", none, Language.english⟩] :=
  c7_fail_soft_on_raise (fun _ => Except.error "network down") "T" "E"
    [⟨ "q", "a", DifficultyLevel.medium, some "G", none, Language.english⟩]
    Language.spanish "network down" (fun _ => rfl)

-- ==========================================================================
-- Claim C8 (confirmed): response shape invariants of generate_flashcards
-- and conversion of provider errors into failure results.
-- ==========================================================================

-- Every generate_flashcards result is either a failure with empty payload
-- and a non-empty message, or a success with no message.
theorem generate_cases (useCohere : Bool) (llm : String → Except String String)
    (basePrompt content : String) (numCards : Nat) :
    (∃ m, generate_flashcards useCohere llm basePrompt content numCards =
        ⟨false, [], [], some m⟩ ∧ m ≠ "") ∨
    (∃ cards topics, generate_flashcards useCohere llm basePrompt content numCards =
        ⟨true, cards, topics, none⟩) := by
  simp only [generate_flashcards]
  repeat' split
  all_goals
    first
      | exact Or.inl ⟨_, rfl, by decide⟩
      | exact Or.inl ⟨_, rfl, str_append_ne_empty _ _ (by decide)⟩
      | exact Or.inr ⟨_, _, rfl⟩

/-- Claim C8: every GenerationResponse produced by generate_flashcards has
empty flashcards/topics and a non-empty error message when success is false,
and no retained error message when success is true; a provider that raises
(modelled as a function returning Except.error on every prompt) yields such
a failure result - no exception escapes. -/
theorem c8_generate_response_invariant (useCohere : Bool)
    (llm : String → Except String String) (basePrompt content : String)
    (numCards : Nat) :
    ((generate_flashcards useCohere llm basePrompt content numCards).success = false →
      (generate_flashcards useCohere llm basePrompt content numCards).flashcards = [] ∧
      (generate_flashcards useCohere llm basePrompt content numCards).topics = [] ∧
      ∃ m, (generate_flashcards useCohere llm basePrompt content numCards).error_message =
        some m ∧ m ≠ "") ∧
    ((generate_flashcards useCohere llm basePrompt content numCards).success = true →
      (generate_flashcards useCohere llm basePrompt content numCards).error_message = none) ∧
    (∀ e, (∀ p, llm p = Except.error e) →
      (generate_flashcards useCohere llm basePrompt content numCards).success = false) := by
  refine ⟨?_, ?_, ?_⟩
  · intro hs
    rcases generate_cases useCohere llm basePrompt content numCards with
      ⟨m, heq, hm⟩ | ⟨cards, topics, heq⟩
    · rw [heq]
      exact ⟨rfl, rfl, m, rfl, hm⟩
    · rw [heq] at hs
      simp at hs
  · intro hs
    rcases generate_cases useCohere llm basePrompt content numCards with
      ⟨m, heq, hm⟩ | ⟨cards, topics, heq⟩
    · rw [heq] at hs
      simp at hs
    · rw [heq]
  · intro e he
    unfold generate_flashcards
    split
    · rfl
    · simp only [he]

/-- Witness for c8_generate_response_invariant: a provider raising a network
error makes generate return a failure result with empty payload and a
non-empty message. -/
theorem c8_generate_response_invariant_witness :
    (generate_flashcards false (fun _ => Except.error "network down") "P"
      "some content" 10).success = false ∧
    (generate_flashcards false (fun _ => Except.error "network down") "P"
      "some content" 10).flashcards = [] ∧
    (generate_flashcards false (fun _ => Except.error "network down") "P"
      "some content" 10).topics = [] ∧
    ∃ m, (generate_flashcards false (fun _ => Except.error "network down") "P"
      "some content" 10).error_message = some m ∧ m ≠ "" := by
  have hs := (c8_generate_response_invariant false
    (fun _ => Except.error "network down") "P" "some content" 10).2.2
    "network down" (fun _ => rfl)
  exact ⟨hs, (c8_generate_response_invariant false
    (fun _ => Except.error "network down") "P" "some content" 10).1 hs⟩

-- ==========================================================================
-- Claim C2 (confirmed): the topic reconciler.  A topics map of integer
-- index lists is encoded as the JSON object the structured parser would
-- hand over.
-- ==========================================================================

-- A Python int as a JSON value.
def jint (i : Int) : Json := Json.num (i : ℚ)

def encodeTopicsInt (tm : List (String × List Int)) : Json :=
  Json.obj (tm.map (fun p => (p.1, Json.arr (p.2.map jint))))

theorem filterIndices_int (l : List Int) (n : Nat) :
    filterIndices (l.map jint) n =
      Except.ok ((l.filter (fun i => decide (i < (n : Int)))).map jint) := by
  induction l with
  | nil => rfl
  | cons i t ih =>
    have hiff : ((i : ℚ) < (n : ℚ)) ↔ (i < (n : Int)) := by
      constructor
      · intro h
        exact_mod_cast h
      · intro h
        exact_mod_cast h
    have hd : (decide ((i : ℚ) < (n : ℚ))) = (decide (i < (n : Int))) :=
      decide_eq_decide.mpr hiff
    simp only [List.map_cons, filterIndices, jint, jLtNat, ih, List.filter_cons, hd]
    by_cases h : i < (n : Int) <;> simp [h, jint]

theorem isEmpty_map_jint (l : List Int) :
    ((l.map jint).isEmpty) = l.isEmpty := by
  cases l <;> rfl

theorem updateTopicsAux_int (tm : List (String × List Int)) (n : Nat) :
    updateTopicsAux (tm.map (fun p => (p.1, Json.arr (p.2.map jint)))) n =
      Except.ok (tm.filterMap (fun p =>
        if (p.2.filter (fun i => decide (i < (n : Int)))).isEmpty then none
        else some (p.1, (p.2.filter (fun i => decide (i < (n : Int)))).map jint))) := by
  induction tm with
  | nil => rfl
  | cons p t ih =>
    simp only [List.map_cons, updateTopicsAux, validIndices, jIter,
      filterIndices_int, ih, List.filterMap_cons]
    cases hE : (p.2.filter (fun i => decide (i < (n : Int)))).isEmpty <;>
      simp [isEmpty_map_jint, hE]

/-- Claim C2: for every topics map (topic to integer index list) and card
count n, _update_topics_mapping succeeds and returns exactly the map in
which each topic keeps its original indices strictly below n in original
order, topics whose filtered list is empty are dropped, and consequently no
returned index is >= n and no returned topic has an empty list. -/
theorem c2_update_topics_reconciler (tm : List (String × List Int)) (n : Nat) :
    ∃ out, update_topics_mapping (encodeTopicsInt tm) n = Except.ok out ∧
      out = tm.filterMap (fun p =>
        if (p.2.filter (fun i => decide (i < (n : Int)))).isEmpty then none
        else some (p.1, (p.2.filter (fun i => decide (i < (n : Int)))).map jint)) ∧
      (∀ t l, (t, l) ∈ out → l ≠ [] ∧
        ∀ j ∈ l, ∃ i : Int, j = jint i ∧ i < (n : Int)) := by
  refine ⟨_, ?_, rfl, ?_⟩
  · show update_topics_mapping (encodeTopicsInt tm) n = _
    unfold update_topics_mapping encodeTopicsInt
    exact updateTopicsAux_int tm n
  · intro t l hmem
    rw [List.mem_filterMap] at hmem
    obtain ⟨p, _, hp⟩ := hmem
    by_cases h : (p.2.filter (fun i => decide (i < (n : Int)))).isEmpty = true
    · rw [if_pos h] at hp
      exact absurd hp (by simp)
    · rw [if_neg h] at hp
      injection hp with hp2
      cases hp2
      constructor
      · intro hX
        exact h (by
          rw [List.isEmpty_iff]
          exact List.map_eq_nil_iff.mp hX)
      · intro j hj
        rw [List.mem_map] at hj
        obtain ⟨i, hi, rfl⟩ := hj
        exact ⟨i, rfl, of_decide_eq_true (List.mem_filter.mp hi).2⟩

-- ==========================================================================
-- Claim C6 (confirmed): free-text inputs made of well-formed Q/A blocks and
-- no topic headers.  A block is one question line followed by its answer
-- lines; the conditions are exactly the branch tests of _parse_text_response.
-- ==========================================================================

-- The answer text the inner loop accumulates for a run of answer lines.
def ansAcc (ls : List String) : String :=
  ls.foldr (fun a acc => (if pyStrip a ≠ "" then pyStrip a ++ " " else "") ++ acc) ""

def WFBlock (b : String × List String) : Prop :=
  isTopicHeader (pyStrip b.1) = false ∧
  isQuestionLine (pyStrip b.1) = true ∧
  questionOf (pyStrip b.1) ≠ "" ∧
  (∀ a ∈ b.2, isQuestionLine (pyStrip a) = false) ∧
  pyStrip (ansAcc b.2) ≠ ""

instance (b : String × List String) : Decidable (WFBlock b) := by
  unfold WFBlock
  infer_instance

-- The card _parse_text_response emits for one well-formed block under the
-- default "General" topic.
def cardOf (b : String × List String) : Flashcard :=
  ⟨questionOf (pyStrip b.1), pyStrip (ansAcc b.2), DifficultyLevel.medium,
    some "General", none, Language.english⟩

def flattenBlocks : List (String × List String) → List String
  | [] => []
  | b :: rest => b.1 :: (b.2 ++ flattenBlocks rest)

theorem collectAnswer_append (als rest : List String)
    (ha : ∀ a ∈ als, isQuestionLine (pyStrip a) = false)
    (hrest : rest = [] ∨ ∃ r rs, rest = r :: rs ∧ isQuestionLine (pyStrip r) = true) :
    collectAnswer (als ++ rest) = (ansAcc als, rest) := by
  induction als with
  | nil =>
    rcases hrest with rfl | ⟨r, rs, rfl, hq⟩
    · rfl
    · simp [collectAnswer, hq, ansAcc]
  | cons a t ih =>
    have ha0 : isQuestionLine (pyStrip a) = false := ha a (by simp)
    simp only [List.cons_append, collectAnswer, ha0, Bool.false_eq_true, if_false]
    rw [show collectAnswer (t.append rest) = (ansAcc t, rest) from
      ih (fun x hx => ha x (by simp [hx]))]
    simp [ansAcc]

theorem parseLines_nil (fuel : Nat) (st : PState) : parseLines fuel [] st = st := by
  cases fuel <;> rfl

theorem parseLines_blocks (blocks : List (String × List String)) :
    ∀ fuel cards, (∀ b ∈ blocks, WFBlock b) →
      (flattenBlocks blocks).length < fuel →
      parseLines fuel (flattenBlocks blocks)
        ⟨cards, [("General", List.range cards.length)], "General"⟩ =
      ⟨cards ++ blocks.map cardOf,
        [("General", List.range (cards.length + blocks.length))], "General"⟩ := by
  induction blocks with
  | nil =>
    intro fuel cards _ _
    simp [flattenBlocks, parseLines_nil]
  | cons b bs ih =>
    intro fuel cards hwf hfuel
    obtain ⟨hh, hq, hqs, has, hans⟩ := hwf b (by simp)
    cases fuel with
    | zero => omega
    | succ f =>
      have hrest : flattenBlocks bs = [] ∨
          ∃ r rs, flattenBlocks bs = r :: rs ∧ isQuestionLine (pyStrip r) = true := by
        cases bs with
        | nil => exact Or.inl rfl
        | cons b2 t2 =>
          exact Or.inr ⟨b2.1, b2.2 ++ flattenBlocks t2, rfl, (hwf b2 (by simp)).2.1⟩
      have hcollect := collectAnswer_append b.2 (flattenBlocks bs) has hrest
      show parseLines (f + 1) (b.1 :: (b.2 ++ flattenBlocks bs)) _ = _
      simp only [parseLines, hh, hq, Bool.false_eq_true, if_false, if_true, hcollect]
      rw [if_pos ⟨hqs, hans⟩]
      have hemit : emitCard ⟨cards, [("General", List.range cards.length)], "General"⟩
          (questionOf (pyStrip b.1)) (pyStrip (ansAcc b.2)) =
          ⟨cards ++ [cardOf b],
            [("General", List.range (cards ++ [cardOf b]).length)], "General"⟩ := by
        unfold emitCard assocAppend
        simp [cardOf, List.range_succ]
      rw [hemit, ih f (cards ++ [cardOf b])
        (fun x hx => hwf x (by simp [hx])) (by
          simp only [flattenBlocks, List.length_cons, List.length_append] at hfuel ⊢
          omega)]
      simp only [List.append_assoc, List.length_append, List.map_cons,
        List.singleton_append, List.length_singleton, List.length_cons,
        List.length_nil, Nat.zero_add]
      rw [show cards.length + 1 + bs.length = cards.length + (bs.length + 1) by omega]

-- Shared characterization of _parse_text_response on block-structured input.
theorem freetext_blocks_spec (blocks : List (String × List String)) (text : String)
    (hsplit : pySplitNl text = flattenBlocks blocks)
    (hwf : ∀ b ∈ blocks, WFBlock b) :
    parse_text_response text =
      (blocks.map cardOf,
        Json.obj [("General", Json.arr ((List.range blocks.length).map jnat))]) ∧
    (parse_text_response text).1.length = blocks.length ∧
    (∀ c ∈ (parse_text_response text).1,
      c.difficulty = DifficultyLevel.medium ∧ c.topic = some "General") := by
  have hmain : parse_text_response text =
      (blocks.map cardOf,
        Json.obj [("General", Json.arr ((List.range blocks.length).map jnat))]) := by
    have h := parseLines_blocks blocks ((flattenBlocks blocks).length + 1) []
      hwf (by omega)
    have hinit : initPState =
        ⟨([] : List Flashcard), [("General", List.range ([] : List Flashcard).length)],
          "General"⟩ := rfl
    simp only [parse_text_response, hsplit, hinit, h]
    simp [topicsToJson]
  refine ⟨hmain, ?_, ?_⟩
  · rw [hmain]
    simp
  · intro c hc
    rw [hmain] at hc
    rw [List.mem_map] at hc
    obtain ⟨b, _, rfl⟩ := hc
    exact ⟨rfl, rfl⟩

/-- Claim C6: for every free-text input that splits into n well-formed
question/answer blocks with no topic-header lines, _parse_text_response
returns exactly the n block cards in order - all difficulty Medium, all
topic "General" - and the topics map assigns "General" the index list
0..n-1. -/
theorem c6_freetext_blocks (blocks : List (String × List String)) (text : String)
    (hsplit : pySplitNl text = flattenBlocks blocks)
    (hwf : ∀ b ∈ blocks, WFBlock b) :
    parse_text_response text =
      (blocks.map cardOf,
        Json.obj [("General", Json.arr ((List.range blocks.length).map jnat))]) ∧
    (parse_text_response text).1.length = blocks.length ∧
    (∀ c ∈ (parse_text_response text).1,
      c.difficulty = DifficultyLevel.medium ∧ c.topic = some "General") :=
  freetext_blocks_spec blocks text hsplit hwf

/-- Witness for c6_freetext_blocks: the spec scenario input with two Q/A
pairs and a trailing newline yields two Medium "General" cards and topics
mapping "General" to [0, 1]. -/
theorem c6_freetext_blocks_witness :
    parse_text_response
      "Q: What is a cell?\nThe basic unit of life.\nQ: What is DNA?\nGenetic material.\n" =
      ([("Q: What is a cell?", ["The basic unit of life."]),
        ("Q: What is DNA?", ["Genetic material.", ""])].map cardOf,
       Json.obj [("General", Json.arr ((List.range 2).map jnat))]) :=
  (c6_freetext_blocks
    [("Q: What is a cell?", ["The basic unit of life."]),
     ("Q: What is DNA?", ["Genetic material.", ""])]
    "Q: What is a cell?\nThe basic unit of life.\nQ: What is DNA?\nGenetic material.\n"
    (by rfl) (by decide)).1

-- ==========================================================================
-- Claim C9 (corrected).  Python str.replace removes ALL occurrences of the
-- needle, so 'Q:' / 'Question:' occurrences after the leading prefix are
-- deleted from the question text, not preserved.
-- ==========================================================================

theorem isPrefixOf_append_self (l t : List Char) : l.isPrefixOf (l ++ t) = true := by
  induction l with
  | nil => simp [List.isPrefixOf]
  | cons c cl ih => simp [List.isPrefixOf_cons₂, ih]

theorem replList_match (pat rep t : List Char) (hp : pat ≠ []) (fuel : Nat) :
    replList pat rep (fuel + 1) (pat ++ t) = rep ++ replList pat rep fuel t := by
  cases pat with
  | nil => exact absurd rfl hp
  | cons p0 pr =>
    have hpre : (p0 :: pr).isPrefixOf (p0 :: (pr ++ t)) = true := by
      rw [← List.cons_append]
      exact isPrefixOf_append_self _ _
    rw [List.cons_append]
    simp only [replList]
    rw [if_pos ⟨by simp, hpre⟩]
    congr 1
    rw [show (p0 :: (pr ++ t)).drop (p0 :: pr).length = (pr ++ t).drop pr.length by rfl,
      List.drop_left]

theorem replList_skip (p0 : Char) (pr rep : List Char) :
    ∀ (l t : List Char) (fuel : Nat), (∀ c ∈ l, c ≠ p0) →
      replList (p0 :: pr) rep (l.length + fuel) (l ++ t) =
        l ++ replList (p0 :: pr) rep fuel t := by
  intro l
  induction l with
  | nil =>
    intro t fuel _
    simp
  | cons c cl ih =>
    intro t fuel hc
    have hc0 : c ≠ p0 := hc c (by simp)
    rw [show (c :: cl).length + fuel = (cl.length + fuel) + 1 by simp [Nat.add_right_comm]]
    rw [List.cons_append]
    simp only [replList]
    rw [if_neg (by
      intro hcond
      have h2 := hcond.2
      rw [List.isPrefixOf_cons₂] at h2
      simp only [Bool.and_eq_true, beq_iff_eq] at h2
      exact hc0 h2.1.symm)]
    rw [ih t fuel (fun x hx => hc x (by simp [hx]))]
    simp

theorem replList_clean (p0 : Char) (pr rep : List Char) (l : List Char)
    (h : ∀ c ∈ l, c ≠ p0) (fuel : Nat) (hf : l.length < fuel) :
    replList (p0 :: pr) rep fuel l = l := by
  have h2 := replList_skip p0 pr rep l [] (fuel - l.length) h
  rw [List.append_nil] at h2
  rw [show fuel = l.length + (fuel - l.length) by omega, h2]
  obtain ⟨k, hk⟩ : ∃ k, fuel - l.length = k + 1 := ⟨fuel - l.length - 1, by omega⟩
  rw [hk]
  simp [replList]

theorem getLast_mem_of_ne_nil (v : List Char) (hv : v ≠ []) :
    ∃ c, v.getLast? = some c ∧ c ∈ v := by
  cases hrev : v.reverse with
  | nil => exact absurd (List.reverse_eq_nil_iff.mp hrev) hv
  | cons c t =>
    refine ⟨c, ?_, ?_⟩
    · rw [← List.head?_reverse, hrev]
      rfl
    · exact List.mem_reverse.mp (by rw [hrev]; simp)

theorem strip_back_id (l : List Char)
    (h2 : ∀ c, l.getLast? = some c → isPySpace c = false) :
    (l.reverse.dropWhile isPySpace).reverse = l := by
  cases hrev : l.reverse with
  | nil => simpa using (List.reverse_eq_nil_iff.mp hrev).symm
  | cons c t =>
    have hcl : l.getLast? = some c := by
      rw [← List.head?_reverse, hrev]
      rfl
    rw [List.dropWhile_cons_of_neg (by simp [h2 c hcl]), ← hrev,
      List.reverse_reverse]

theorem pyStrip_id_of (s : String)
    (h1 : ∀ c, s.data.head? = some c → isPySpace c = false)
    (h2 : ∀ c, s.data.getLast? = some c → isPySpace c = false) :
    pyStrip s = s := by
  apply String.ext
  show pyStripList s.data = s.data
  unfold pyStripList
  have hd : s.data.dropWhile isPySpace = s.data := by
    cases hsd : s.data with
    | nil => rfl
    | cons c t =>
      exact List.dropWhile_cons_of_neg (by simp [h1 c (by rw [hsd]; rfl)])
  rw [hd]
  exact strip_back_id s.data h2

theorem c9_strip (u v : List Char) (hu : u ≠ []) (hv : v ≠ [])
    (hus : ∀ c ∈ u, isPySpace c = false) (hvs : ∀ c ∈ v, isPySpace c = false) :
    pyStripList (' ' :: (u ++ (' ' :: ' ' :: v))) = u ++ (' ' :: ' ' :: v) := by
  unfold pyStripList
  rw [List.dropWhile_cons_of_pos (by rfl)]
  obtain ⟨uh, ut, rfl⟩ : ∃ h t, u = h :: t := by
    cases u with
    | nil => exact absurd rfl hu
    | cons h t => exact ⟨h, t, rfl⟩
  rw [List.cons_append, List.dropWhile_cons_of_neg (by simp [hus uh (by simp)]),
    ← List.cons_append]
  apply strip_back_id
  intro c hcl
  obtain ⟨cv, hcv, hcvm⟩ := getLast_mem_of_ne_nil v hv
  rw [List.getLast?_append,
    show (' ' :: ' ' :: v : List Char) = [' ', ' '] ++ v from rfl,
    List.getLast?_append, hcv] at hcl
  simp only [Option.or] at hcl
  have hcc : cv = c := Option.some.inj hcl
  subst hcc
  exact hvs cv hcvm

theorem c9_replace_data (u v : List Char)
    (hqu : ∀ c ∈ u, c ≠ 'Q') (hqv : ∀ c ∈ v, c ≠ 'Q')
    (fuel : Nat) (hf : u.length + v.length + 8 ≤ fuel) :
    replList ['Q', ':'] [] fuel
      ('Q' :: ':' :: ' ' :: (u ++ (' ' :: 'Q' :: ':' :: ' ' :: v))) =
      ' ' :: (u ++ (' ' :: ' ' :: v)) := by
  rw [show ('Q' :: ':' :: ' ' :: (u ++ (' ' :: 'Q' :: ':' :: ' ' :: v))) =
      ['Q', ':'] ++ (' ' :: (u ++ (' ' :: 'Q' :: ':' :: ' ' :: v))) from rfl]
  rw [show fuel = (fuel - 1) + 1 by omega, replList_match _ _ _ (by simp)]
  rw [show (' ' :: (u ++ (' ' :: 'Q' :: ':' :: ' ' :: v))) =
      ((' ' :: u) ++ [' ']) ++ ('Q' :: ':' :: ' ' :: v) by simp]
  rw [show fuel - 1 = ((' ' :: u) ++ [' ']).length + (fuel - u.length - 3) by
    simp
    omega]
  rw [replList_skip 'Q' [':'] [] _ _ _ (by
    intro c hcm
    simp only [List.mem_append, List.mem_cons, List.mem_singleton] at hcm
    rcases hcm with (rfl | hcm) | (rfl | hcm)
    · decide
    · exact hqu c hcm
    · decide
    · exact absurd hcm (List.not_mem_nil c))]
  rw [show ('Q' :: ':' :: ' ' :: v : List Char) = ['Q', ':'] ++ (' ' :: v) from rfl]
  rw [show fuel - u.length - 3 = (fuel - u.length - 4) + 1 by omega,
    replList_match _ _ _ (by simp)]
  rw [replList_clean 'Q' [':'] [] (' ' :: v) (by
    intro c hcm
    simp only [List.mem_cons] at hcm
    rcases hcm with rfl | hcm
    · decide
    · exact hqv c hcm) _ (by simp; omega)]
  simp

theorem c9_line_data (u v : String) :
    ("Q: " ++ u ++ " Q: " ++ v).data =
      'Q' :: ':' :: ' ' :: (u.data ++ (' ' :: 'Q' :: ':' :: ' ' :: v.data)) := by
  rw [String.data_append, String.data_append, String.data_append]
  rw [show ("Q: " : String).data = ['Q', ':', ' '] from rfl,
    show (" Q: " : String).data = [' ', 'Q', ':', ' '] from rfl]
  simp

theorem c9_questionOf (u v : String) (hu : u ≠ "") (hv : v ≠ "")
    (hc : ∀ c, (c ∈ u.data ∨ c ∈ v.data) → c ≠ 'Q' ∧ c ≠ ':' ∧ isPySpace c = false) :
    questionOf ("Q: " ++ u ++ " Q: " ++ v) = u ++ "  " ++ v := by
  have hud : u.data ≠ [] := fun h => hu (String.ext h)
  have hvd : v.data ≠ [] := fun h => hv (String.ext h)
  have hqu : ∀ c ∈ u.data, c ≠ 'Q' := fun c h2 => (hc c (Or.inl h2)).1
  have hqv : ∀ c ∈ v.data, c ≠ 'Q' := fun c h2 => (hc c (Or.inr h2)).1
  have hsu : ∀ c ∈ u.data, isPySpace c = false := fun c h2 => (hc c (Or.inl h2)).2.2
  have hsv : ∀ c ∈ v.data, isPySpace c = false := fun c h2 => (hc c (Or.inr h2)).2.2
  unfold questionOf pyReplace
  rw [show ("Q:" : String).data = ['Q', ':'] from rfl,
    show ("" : String).data = [] from rfl, c9_line_data u v]
  rw [c9_replace_data u.data v.data hqu hqv _ (by simp; omega)]
  rw [show ("Question:" : String).data =
    'Q' :: ['u', 'e', 's', 't', 'i', 'o', 'n', ':'] from rfl]
  rw [show (⟨' ' :: (u.data ++ (' ' :: ' ' :: v.data))⟩ : String).data =
    ' ' :: (u.data ++ (' ' :: ' ' :: v.data)) from rfl]
  rw [replList_clean 'Q' ['u', 'e', 's', 't', 'i', 'o', 'n', ':'] [] _ (by
    intro c hcm
    simp only [List.mem_cons, List.mem_append] at hcm
    rcases hcm with rfl | (hcm | (rfl | (rfl | hcm)))
    · decide
    · exact hqu c hcm
    · decide
    · decide
    · exact hqv c hcm) _ (by omega)]
  apply String.ext
  show pyStripList (' ' :: (u.data ++ (' ' :: ' ' :: v.data))) = (u ++ "  " ++ v).data
  rw [c9_strip u.data v.data hud hvd hsu hsv]
  rw [String.data_append, String.data_append,
    show ("  " : String).data = [' ', ' '] from rfl]
  simp

theorem splitNlList_no_nl (l : List Char) (h : ∀ c ∈ l, c ≠ '\n') :
    splitNlList l = [l] := by
  induction l with
  | nil => rfl
  | cons c t ih =>
    have hc : (c == '\n') = false := by simp [h c (by simp)]
    simp only [splitNlList, hc, Bool.false_eq_true, if_false]
    rw [ih (fun x hx => h x (by simp [hx]))]

theorem splitNlList_append_nl (l1 l2 : List Char) (h : ∀ c ∈ l1, c ≠ '\n') :
    splitNlList (l1 ++ '\n' :: l2) = l1 :: splitNlList l2 := by
  induction l1 with
  | nil => simp [splitNlList]
  | cons c t ih =>
    have hc : (c == '\n') = false := by simp [h c (by simp)]
    simp only [List.cons_append, splitNlList, hc, Bool.false_eq_true, if_false]
    rw [show splitNlList (t.append ('\n' :: l2)) = t :: splitNlList l2 from
      ih (fun x hx => h x (by simp [hx]))]

theorem pySplitNl_two (L tail : String) (hL : ∀ c ∈ L.data, c ≠ '\n')
    (htail : ∀ c ∈ tail.data, c ≠ '\n') :
    pySplitNl (L ++ "\n" ++ tail) = [L, tail] := by
  unfold pySplitNl
  have hdata : (L ++ "\n" ++ tail).data = L.data ++ ('\n' :: tail.data) := by
    rw [String.data_append, String.data_append,
      show ("\n" : String).data = ['\n'] from rfl]
    simp
  rw [hdata, splitNlList_append_nl _ _ hL, splitNlList_no_nl _ htail]
  rfl

/-- Claim C9 counterexample: on the question line "Q: Alpha Q: Beta" the
free-text parser produces the question "Alpha  Beta" - the second "Q:"
inside the line is deleted, not preserved as the claim states (the claim
predicts "Alpha Q: Beta"). -/
theorem c9_counterexample :
    ((parse_text_response "Q: Alpha Q: Beta\nAnswer here.").1.map Flashcard.question) =
      ["Alpha  Beta"] ∧
    ("Alpha  Beta" : String) ≠ "Alpha Q: Beta" := by
  exact ⟨rfl, by decide⟩

/-- Claim C9 amended: for every line recognized as a question line, the
question text is obtained by deleting EVERY occurrence of "Q:" (and then
"Question:") from the whole trimmed line and trimming the result, so a later
occurrence inside the line is deleted rather than preserved: a line
"Q: u Q: v" (u, v free of 'Q', ':' and whitespace) yields the question
u ++ "  " ++ v, also when run through the full free-text parser. -/
theorem c9_question_deletes_all_occurrences (u v : String) (hu : u ≠ "") (hv : v ≠ "")
    (hc : ∀ c, (c ∈ u.data ∨ c ∈ v.data) → c ≠ 'Q' ∧ c ≠ ':' ∧ isPySpace c = false)
    (hh : isTopicHeader ("Q: " ++ u ++ " Q: " ++ v) = false) :
    questionOf ("Q: " ++ u ++ " Q: " ++ v) = u ++ "  " ++ v ∧
    (parse_text_response ("Q: " ++ u ++ " Q: " ++ v ++ "\n" ++ "The answer.")).1 =
      [⟨u ++ "  " ++ v, "The answer.", DifficultyLevel.medium, some "General", none,
        Language.english⟩] := by
  have hq := c9_questionOf u v hu hv hc
  have hud : u.data ≠ [] := fun h => hu (String.ext h)
  have hvd : v.data ≠ [] := fun h => hv (String.ext h)
  have hnlL : ∀ c ∈ ("Q: " ++ u ++ " Q: " ++ v).data, c ≠ '\n' := by
    intro c hcm
    rw [c9_line_data] at hcm
    simp only [List.mem_cons, List.mem_append] at hcm
    have hsp : ∀ x, isPySpace x = false → x ≠ '\n' := by
      intro x hx hxe
      rw [hxe] at hx
      exact absurd hx (by decide)
    rcases hcm with rfl | (rfl | (rfl | (hcm | (rfl | (rfl | (rfl | (rfl | hcm)))))))
    · decide
    · decide
    · decide
    · exact hsp c (hc c (Or.inl hcm)).2.2
    · decide
    · decide
    · decide
    · decide
    · exact hsp c (hc c (Or.inr hcm)).2.2
  have hstrip : pyStrip ("Q: " ++ u ++ " Q: " ++ v) = "Q: " ++ u ++ " Q: " ++ v := by
    apply pyStrip_id_of
    · intro c hcm
      rw [c9_line_data] at hcm
      cases hcm
      decide
    · intro c hcm
      obtain ⟨cv, hcv, hcvm⟩ := getLast_mem_of_ne_nil v.data hvd
      rw [c9_line_data] at hcm
      rw [show ('Q' :: ':' :: ' ' ::
            (u.data ++ (' ' :: 'Q' :: ':' :: ' ' :: v.data)) : List Char) =
          (('Q' :: ':' :: ' ' :: u.data) ++ [' ', 'Q', ':', ' ']) ++ v.data by simp,
        List.getLast?_append, hcv] at hcm
      simp only [Option.or] at hcm
      have hcc : cv = c := Option.some.inj hcm
      subst hcc
      exact (hc cv (Or.inr hcvm)).2.2
  have hqline : isQuestionLine ("Q: " ++ u ++ " Q: " ++ v) = true := by
    unfold isQuestionLine pyStartsWith
    rw [show ("Q:" : String).data = ['Q', ':'] from rfl, c9_line_data]
    rw [show ('Q' :: ':' :: ' ' ::
        (u.data ++ (' ' :: 'Q' :: ':' :: ' ' :: v.data)) : List Char) =
      ['Q', ':'] ++ (' ' :: (u.data ++ (' ' :: 'Q' :: ':' :: ' ' :: v.data))) from rfl]
    rw [isPrefixOf_append_self]
    rfl
  have hqne : questionOf ("Q: " ++ u ++ " Q: " ++ v) ≠ "" := by
    rw [hq]
    intro heq
    have hd : (u ++ "  " ++ v).data = [] := by rw [heq]
    rw [String.data_append, String.data_append] at hd
    exact hud (List.append_eq_nil.mp (List.append_eq_nil.mp hd).1).1
  have hwfb : WFBlock ("Q: " ++ u ++ " Q: " ++ v, ["The answer."]) := by
    refine ⟨?_, ?_, ?_, ?_, ?_⟩
    · show isTopicHeader (pyStrip ("Q: " ++ u ++ " Q: " ++ v)) = false
      rw [hstrip]
      exact hh
    · show isQuestionLine (pyStrip ("Q: " ++ u ++ " Q: " ++ v)) = true
      rw [hstrip]
      exact hqline
    · show questionOf (pyStrip ("Q: " ++ u ++ " Q: " ++ v)) ≠ ""
      rw [hstrip]
      exact hqne
    · intro a ha
      rcases List.mem_singleton.mp ha with rfl
      decide
    · show pyStrip (ansAcc ["The answer."]) ≠ ""
      decide
  have hsplit : pySplitNl ("Q: " ++ u ++ " Q: " ++ v ++ "\n" ++ "The answer.") =
      flattenBlocks [("Q: " ++ u ++ " Q: " ++ v, ["The answer."])] := by
    rw [pySplitNl_two _ _ hnlL (by decide)]
    rfl
  have hmain := (freetext_blocks_spec [("Q: " ++ u ++ " Q: " ++ v, ["The answer."])]
    ("Q: " ++ u ++ " Q: " ++ v ++ "\n" ++ "The answer.") hsplit
    (by
      intro b hb
      rcases List.mem_singleton.mp hb with rfl
      exact hwfb)).1
  refine ⟨hq, ?_⟩
  rw [hmain]
  show [cardOf ("Q: " ++ u ++ " Q: " ++ v, ["The answer."])] = _
  unfold cardOf
  rw [show (("Q: " ++ u ++ " Q: " ++ v, ["The answer."]).1 : String) =
    "Q: " ++ u ++ " Q: " ++ v from rfl, hstrip, hq]
  rfl

/-- Witness for c9_question_deletes_all_occurrences at u = "Alpha",
v = "Beta": the parsed question is "Alpha  Beta" with both "Q:" markers
removed. -/
theorem c9_question_deletes_all_occurrences_witness :
    questionOf ("Q: " ++ "Alpha" ++ " Q: " ++ "Beta") = "Alpha" ++ "  " ++ "Beta" ∧
    (parse_text_response
      ("Q: " ++ "Alpha" ++ " Q: " ++ "Beta" ++ "\n" ++ "The answer.")).1 =
      [⟨ "Alpha" ++ "  " ++ "Beta", "The answer.", DifficultyLevel.medium,
        some "General", none, Language.english⟩] :=
  c9_question_deletes_all_occurrences "Alpha" "Beta" (by decide) (by decide)
    (by
      intro c hcm
      rcases hcm with hcm | hcm
      · rw [show ("Alpha" : String).data = ['A', 'l', 'p', 'h', 'a'] from rfl] at hcm
        simp only [List.mem_cons, List.not_mem_nil, or_false] at hcm
        rcases hcm with rfl | rfl | rfl | rfl | rfl <;> decide
      · rw [show ("Beta" : String).data = ['B', 'e', 't', 'a'] from rfl] at hcm
        simp only [List.mem_cons, List.not_mem_nil, or_false] at hcm
        rcases hcm with rfl | rfl | rfl | rfl <;> decide)
    (by decide)

-- ==========================================================================
-- Claim C5 (corrected).  pydantic `str` fields accept blank strings, so a
-- record with blank question/answer is NOT skipped: the card is kept with
-- blank (but trimmed) fields.  Only type-level failures (a non-string
-- question/answer, a bad difficulty) skip a card.
-- ==========================================================================

/-- Claim C5 counterexample: a payload with a blank question produces a kept
card whose question is blank - the record is not skipped and the returned
list does contain a card with a blank trimmed question. -/
theorem c5_counterexample :
    (parse_llm_response "\x7b\"flashcards\": [\x7b\"question\": \"\", \"answer\": \"x\"\x7d]\x7d").1 =
      [⟨ "", "x", DifficultyLevel.medium, some "General", none, Language.english⟩] := by
  rfl

theorem pyStripList_idem (l : List Char) :
    pyStripList (pyStripList l) = pyStripList l := by
  unfold pyStripList
  have hCdrop : ∀ m : List Char, (m.dropWhile isPySpace).dropWhile isPySpace =
      m.dropWhile isPySpace := by
    intro m
    cases hc : m.dropWhile isPySpace with
    | nil => rfl
    | cons c t =>
      have hh := List.head?_dropWhile_not isPySpace m
      rw [hc] at hh
      have hh2 : isPySpace c = false := by simpa using hh
      exact List.dropWhile_cons_of_neg (by simp [hh2])
  have hBdrop : ((l.dropWhile isPySpace).reverse.dropWhile isPySpace).reverse.dropWhile
      isPySpace = ((l.dropWhile isPySpace).reverse.dropWhile isPySpace).reverse := by
    cases hcr : ((l.dropWhile isPySpace).reverse.dropWhile isPySpace).reverse with
    | nil => rfl
    | cons b t =>
      have hCne : (l.dropWhile isPySpace).reverse.dropWhile isPySpace ≠ [] := by
        intro h0
        rw [h0] at hcr
        simp at hcr
      have hbC : ((l.dropWhile isPySpace).reverse.dropWhile isPySpace).getLast? =
          some b := by
        rw [← List.head?_reverse, hcr]
        rfl
      obtain ⟨q, hq⟩ := List.dropWhile_suffix (l := (l.dropWhile isPySpace).reverse)
        (p := isPySpace)
      have hAr : (l.dropWhile isPySpace).reverse.getLast? = some b := by
        rw [← hq, List.getLast?_append, hbC]
        rfl
      have hAh : (l.dropWhile isPySpace).head? = some b := by
        rw [← List.getLast?_reverse]
        exact hAr
      have hpb : isPySpace b = false := by
        have hh := List.head?_dropWhile_not isPySpace l
        rw [hAh] at hh
        exact hh
      exact List.dropWhile_cons_of_neg (by simp [hpb])
  rw [hBdrop, List.reverse_reverse, hCdrop]

theorem pyStrip_idem (s : String) : pyStrip (pyStrip s) = pyStrip s :=
  String.ext (pyStripList_idem s.data)

-- Every successfully validated card carries stripped question/answer fields.
theorem parseCard_shape (j : Json) :
    parseCard j = none ∨ ∃ q a dl t, parseCard j =
      some ⟨pyStrip q, pyStrip a, dl, t, none, Language.english⟩ := by
  unfold parseCard
  repeat' split
  all_goals
    first
      | exact Or.inl rfl
      | exact Or.inr ⟨_, _, _, _, rfl⟩

def TrimOk (c : Flashcard) : Prop :=
  c.question = pyStrip c.question ∧ c.answer = pyStrip c.answer

theorem parseCard_trim (j : Json) (c : Flashcard) (h : parseCard j = some c) :
    TrimOk c := by
  rcases parseCard_shape j with h0 | ⟨q, a, dl, t, h0⟩
  · rw [h0] at h
    exact absurd h (by simp)
  · rw [h0] at h
    injection h with h2
    subst h2
    exact ⟨(pyStrip_idem q).symm, (pyStrip_idem a).symm⟩

theorem parseLines_trim_inv : ∀ (fuel : Nat) (lines : List String) (st : PState),
    (∀ c ∈ st.cards, TrimOk c) →
    ∀ c ∈ (parseLines fuel lines st).cards, TrimOk c := by
  intro fuel
  induction fuel with
  | zero =>
    intro lines st h
    exact h
  | succ n ih =>
    intro lines st h
    cases lines with
    | nil => exact h
    | cons l rest =>
      simp only [parseLines]
      split
      · exact ih _ _ h
      · split
        · apply ih
          split
          · intro c hc
            unfold emitCard at hc
            simp only at hc
            rcases List.mem_append.mp hc with hc | hc
            · exact h c hc
            · rcases List.mem_singleton.mp hc with rfl
              exact ⟨(pyStrip_idem _).symm, (pyStrip_idem _).symm⟩
          · exact h
        · exact ih _ _ h

theorem parse_text_trim (text : String) :
    ∀ c ∈ (parse_text_response text).1, TrimOk c := by
  intro c hc
  unfold parse_text_response at hc
  exact parseLines_trim_inv _ _ initPState (by intro x hx; exact absurd hx (by simp [initPState])) c hc

/-- Claim C5 amended: the structured parser's per-card validation strips
question and answer but accepts blank values: every returned card has
question and answer equal to their own trimmed form (possibly empty), a
record with a blank question is kept rather than skipped, and only
type-level failures (for example a non-string question) fail the individual
card. -/
theorem c5_blank_fields_kept :
    (∀ text c, c ∈ (parse_llm_response text).1 →
      c.question = pyStrip c.question ∧ c.answer = pyStrip c.answer) ∧
    (∀ a : String,
      parseCard (Json.obj [("question", Json.str ""), ("answer", Json.str a)]) =
        some ⟨ "", pyStrip a, DifficultyLevel.medium, some "General", none,
          Language.english⟩) ∧
    (∀ n : ℚ, ∀ a : String,
      parseCard (Json.obj [("question", Json.num n), ("answer", Json.str a)]) = none) := by
  refine ⟨?_, ?_, ?_⟩
  · intro text c hc
    simp only [parse_llm_response] at hc
    split at hc
    · exact absurd hc (by simp)
    · split at hc
      · exact parse_text_trim text c hc
      · split at hc
        · exact absurd hc (by simp)
        · rw [List.mem_filterMap] at hc
          obtain ⟨j, _, hj⟩ := hc
          exact parseCard_trim j c hj
      · exact absurd hc (by simp)
  · intro a
    simp [parseCard, jLookup, difficultyFromStr]
    rfl
  · intro n a
    simp [parseCard, jLookup]

/-- Witness for c5_blank_fields_kept: the blank-question card kept by the
structured parser indeed carries trimmed (here blank) fields. -/
theorem c5_blank_fields_kept_witness :
    (⟨ "", "x", DifficultyLevel.medium, some "General", none, Language.english⟩ :
        Flashcard) ∈
      (parse_llm_response
        "\x7b\"flashcards\": [\x7b\"question\": \"\", \"answer\": \"x\"\x7d]\x7d").1 ∧
    ("" : String) = pyStrip "" ∧ ("x" : String) = pyStrip "x" := by
  have hmem : (⟨ "", "x", DifficultyLevel.medium, some "General", none,
      Language.english⟩ : Flashcard) ∈
      (parse_llm_response
        "\x7b\"flashcards\": [\x7b\"question\": \"\", \"answer\": \"x\"\x7d]\x7d").1 := by
    rw [show (parse_llm_response
        "\x7b\"flashcards\": [\x7b\"question\": \"\", \"answer\": \"x\"\x7d]\x7d").1 =
      [⟨ "", "x", DifficultyLevel.medium, some "General", none, Language.english⟩]
      from rfl]
    exact List.mem_singleton.mpr rfl
  exact ⟨hmem, c5_blank_fields_kept.1 _ _ hmem⟩

/-- Witness for c2_update_topics_reconciler at the concrete topics map
A -> [0, 3], B -> [5] with card count 2: topic B is dropped, topic A keeps
only index 0, and the surviving list is non-empty. -/
theorem c2_update_topics_reconciler_witness :
    update_topics_mapping (encodeTopicsInt [("A", [0, 3]), ("B", [5])]) 2 =
      Except.ok [("A", [jint 0])] ∧ ([jint 0] : List Json) ≠ [] := by
  obtain ⟨out, hok, hout, hmem⟩ := c2_update_topics_reconciler [("A", [0, 3]), ("B", [5])] 2
  subst hout
  constructor
  · rw [hok]
    rfl
  · refine (hmem "A" [jint 0] ?_).1
    rw [show ([("A", [0, 3]), ("B", [5])] : List (String × List Int)).filterMap
        (fun p => if (p.2.filter (fun i => decide (i < ((2 : Nat) : Int)))).isEmpty
          then none
          else some (p.1, (p.2.filter (fun i => decide (i < ((2 : Nat) : Int)))).map jint)) =
      [("A", [jint 0])] from rfl]
    exact List.mem_singleton.mpr rfl

end FC
